import Mathlib

/-!
Verification of the sweep-and-measurement controller of the ns-3 wifi
propagation experiments, shallowly embedded from
src/wifi-propagation-comparison.cc and src/wifi-runtime-comparison.cc.

Machine doubles are modelled as rationals. The data produced by the external
simulation runtime — the rxBytes counters of the flow entries the flow
monitor returns after a run, and the per-frame signal levels delivered to
the MonitorSnifferRx callback during a run — are treated as oracles: one
list of flow rxBytes values and one list of signal levels per sweep
coordinate. Each run tears its simulator down, so runs are independent and
a per-coordinate oracle is faithful.
-/

/-- The enum PropagationModel shared by both source files. -/
inductive PropagationModel
  | FRIIS
  | FIXED_RSS
  | THREE_LOG_DISTANCE
  | TWO_RAY_GROUND
  | NAKAGAMI
  deriving DecidableEq, BEq, Repr

/-- propagationModelToString: the switch over the five enumerators. -/
def propagationModelToString : PropagationModel → String
  | PropagationModel.FRIIS => "Friis"
  | PropagationModel.FIXED_RSS => "FixedRSS"
  | PropagationModel.THREE_LOG_DISTANCE => "ThreeLogDistance"
  | PropagationModel.TWO_RAY_GROUND => "TwoRayGround"
  | PropagationModel.NAKAGAMI => "Nakagami"

/-- The same switch viewed on the raw enumeration tag (FRIIS = 0 up to
NAKAGAMI = 4). The C++ switch has no default case, so for a tag outside the
five enumerators no case matches and control falls off the end of the
value-returning function without producing a string; that path is modelled
as none. -/
def propagationModelToStringTag : ℕ → Option String
  | 0 => some "Friis"
  | 1 => some "FixedRSS"
  | 2 => some "ThreeLogDistance"
  | 3 => some "TwoRayGround"
  | 4 => some "Nakagami"
  | _ => none

/-- One update of the global averageRSS by the PhyTrace callback:
averageRSS = (signalNoise.signal + averageRSS) / 2. -/
def phyTraceStep (averageRSS signal : ℚ) : ℚ :=
  (signal + averageRSS) / 2

/-- The value of the global averageRSS at the end of one run: the driver
first executes the reset averageRSS = 0 and then PhyTrace processes each
received frame in order. The value left in the global by the prior run,
averageRSSBefore, is overwritten by the reset. -/
def runAverageRSS (_averageRSSBefore : ℚ) (signals : List ℚ) : ℚ :=
  List.foldl phyTraceStep 0 signals

/-- Modelled from the words of the spec: the recurrence e0 = 0,
ei = (si + e(i-1)) / 2, written as its own recursion to compare with the
embedding of the source. -/
def rssRecurrenceAux : ℚ → List ℚ → ℚ
  | e, [] => e
  | e, s :: ss => rssRecurrenceAux ((s + e) / 2) ss

/-- The spec recurrence started at e0 = 0. -/
def rssRecurrence (signals : List ℚ) : ℚ :=
  rssRecurrenceAux 0 signals

/-- Throughput in kbps for one flow entry:
it->second.rxBytes * 8.0 / simulationTime / 1024. -/
def throughputKbps (rxBytes : ℕ) (durationSeconds : ℚ) : ℚ :=
  rxBytes * 8 / durationSeconds / 1024

/-- One CSV data row: sweep coordinate, RSS estimate, throughput. -/
structure Row where
  coordinate : ℕ
  rss : ℚ
  throughput : ℚ
  deriving DecidableEq, Repr

/-- Per-run oracle for the distance sweep: at distance d, the rxBytes
counters of the flow entries the flow monitor returns, and the signal levels
of the frames the sniffer callback sees during that run. -/
structure DistanceEnv where
  flows : ℕ → List ℕ
  signals : ℕ → List ℚ

/-- const double simulationTime = 50 in wifi-propagation-comparison.cc. -/
def simulationTime : ℚ := 50

/-- const double dataRate = 75e6, identical in both drivers. -/
def dataRate : ℚ := 75000000

/-- const uint64_t packetSize = 1450, identical in both drivers. -/
def packetSize : ℕ := 1450

/-- const double interval = 1 / (dataRate / (packetSize * 8)). -/
def interval : ℚ := 1 / (dataRate / ((packetSize : ℚ) * 8))

/-- const uint64_t packetLimit = simulationTime / interval: the double
quotient is truncated by the conversion to uint64_t, modelled by Nat.floor
(the quotient is nonnegative). -/
def packetLimit (durationSeconds : ℚ) : ℕ :=
  ⌊durationSeconds / interval⌋₊

/-- The forced-stop test model == NAKAGAMI || model == FIXED_RSS guarding
the distance bound in wifi-propagation-comparison.cc. -/
def isForcedStopModel (model : PropagationModel) : Bool :=
  model == PropagationModel.NAKAGAMI || model == PropagationModel.FIXED_RSS

/-- The rows appended by the per-flow loop of one distance-sweep run at
distance d: one row per flow entry, each carrying the end-of-run RSS
estimate and the throughput of that flow entry over the fixed 50 s
duration. -/
def runRows (env : DistanceEnv) (d : ℕ) (averageRSSBefore : ℚ) : List Row :=
  let averageRSS := runAverageRSS averageRSSBefore (env.signals d)
  (env.flows d).map (fun rxBytes => ⟨d, averageRSS, throughputKbps rxBytes simulationTime⟩)

/-- The value of connectionPossible at the end of one distance-sweep run at
distance d. It is true on entry (the loop guard), set to false inside the
per-flow loop if an iterated flow entry has rxBytes == 0, and set to false
afterwards if d >= 500 and the model is NAKAGAMI or FIXED_RSS. -/
def runConnectionPossible (model : PropagationModel) (env : DistanceEnv) (d : ℕ) : Bool :=
  ((env.flows d).all (fun rxBytes => rxBytes != 0))
    && !(decide (500 ≤ d) && isForcedStopModel model)

/-- The inner distance loop of wifi-propagation-comparison.cc
(for (double d = 1; connectionPossible; d += 1)), observed for at most fuel
iterations, started at distance d with averageRSSBefore left in the global.
Each iteration resets the RSS estimate, runs the simulation, appends one row
per flow entry and re-evaluates connectionPossible. The C++ loop has no
a-priori bound, so the embedding is indexed by fuel; once the loop condition
turns false the result no longer depends on any larger fuel. -/
def distanceSweepAux (model : PropagationModel) (env : DistanceEnv) :
    ℕ → ℕ → ℚ → List Row
  | 0, _, _ => []
  | fuel + 1, d, averageRSSBefore =>
    runRows env d averageRSSBefore
      ++ (if runConnectionPossible model env d then
            distanceSweepAux model env fuel (d + 1)
              (runAverageRSS averageRSSBefore (env.signals d))
          else [])

/-- The full distance sweep for one model: distance starts at 1 and the
global averageRSS starts at 0. -/
def distanceSweep (model : PropagationModel) (env : DistanceEnv) (fuel : ℕ) : List Row :=
  distanceSweepAux model env fuel 1 0

/-- Per-run oracle for the runtime sweep, indexed by the duration of the
run. -/
structure RuntimeEnv where
  flows : ℕ → List ℕ
  signals : ℕ → List ℚ

/-- The mutable state of the runtime-sweep driver: the connectionPossible
flag, the global averageRSS and the rows written so far. -/
structure RuntimeState where
  connectionPossible : Bool
  averageRSS : ℚ
  rows : List Row
  deriving Repr

/-- One iteration of the runtime-sweep loop at duration simTime: reset the
RSS estimate, run the simulation, append one row per flow entry (throughput
divides by the current duration) and update connectionPossible, which the
loop condition never consults. -/
def runtimeStep (env : RuntimeEnv) (st : RuntimeState) (simTime : ℕ) : RuntimeState :=
  let averageRSS := runAverageRSS st.averageRSS (env.signals simTime)
  { connectionPossible :=
      st.connectionPossible && (env.flows simTime).all (fun rxBytes => rxBytes != 0),
    averageRSS := averageRSS,
    rows := st.rows
      ++ (env.flows simTime).map
           (fun rxBytes => ⟨simTime, averageRSS, throughputKbps rxBytes simTime⟩) }

/-- The runtime-sweep loop of wifi-runtime-comparison.cc:
for (double simulationTime = 1; simulationTime <= 200; simulationTime += 1),
iterated unconditionally over all 200 durations. -/
def runtimeSweep (env : RuntimeEnv) : RuntimeState :=
  (List.range' 1 200).foldl (runtimeStep env) ⟨true, 0, []⟩

/-- Environment in which every run returns one flow entry with one received
byte: connectivity never breaks. -/
def envAllOnes : DistanceEnv :=
  ⟨fun _ => [1], fun _ => []⟩

/-- Environment in which every run returns one flow entry with zero received
bytes and the callback sees no frames. -/
def envAllZero : DistanceEnv :=
  ⟨fun _ => [0], fun _ => []⟩

/-- Environment in which the flow monitor never returns any flow entry. -/
def envNoFlows : DistanceEnv :=
  ⟨fun _ => [], fun _ => []⟩

/-- Environment with exactly one flow entry of 5 received bytes and one
received frame at -60 dBm in every run. -/
def envOneFlow : DistanceEnv :=
  ⟨fun _ => [5], fun _ => [-60]⟩

/-- Environment whose single flow entry receives bytes at every distance up
to 500 and would first receive nothing at distance 501. -/
def envConnectedTo500 : DistanceEnv :=
  ⟨fun d => if d ≤ 500 then [1] else [0], fun _ => []⟩

/-- Environment whose single flow entry receives bytes at distances 1 and 2
and receives nothing from distance 3 on. -/
def envC1w : DistanceEnv :=
  ⟨fun d => if d < 3 then [1] else [0], fun _ => []⟩

/-- The rxBytes values of the single flow entry of envC1w. -/
def rxC1w : ℕ → ℕ :=
  fun d => if d < 3 then 1 else 0

/-- Runtime-sweep environment with one zero-byte flow entry in every run. -/
def renvAllZero : RuntimeEnv :=
  ⟨fun _ => [0], fun _ => []⟩

/-- Runtime-sweep environment in which the flow monitor never returns any
flow entry. -/
def renvNoFlows : RuntimeEnv :=
  ⟨fun _ => [], fun _ => []⟩

/-- The spec recurrence is the left fold of the PhyTrace update. -/
theorem rssRecurrenceAux_eq_foldl :
    ∀ (signals : List ℚ) (e : ℚ),
      rssRecurrenceAux e signals = List.foldl phyTraceStep e signals := by
  intro signals
  induction signals with
  | nil => intro e; rfl
  | cons s ss ih =>
    intro e
    simp [rssRecurrenceAux, phyTraceStep, List.foldl_cons, ih]

/-- Shape of the distance sweep when the stop condition first fires after n
coordinates: the map of coordinates is the contiguous range of length n
starting at the initial distance. -/
theorem distanceSweepAux_coords (model : PropagationModel) (env : DistanceEnv) :
    ∀ (n fuel d : ℕ) (b : ℚ), 1 ≤ n → n ≤ fuel →
      (∀ e, e < d + n → d ≤ e → (env.flows e).length = 1) →
      (∀ e, e + 1 < d + n → d ≤ e → runConnectionPossible model env e = true) →
      runConnectionPossible model env (d + n - 1) = false →
      (distanceSweepAux model env fuel d b).map Row.coordinate = List.range' d n := by
  intro n
  induction n with
  | zero => intro fuel d b h1; omega
  | succ m ih =>
    intro fuel d b _ hfuel hlen hcont hstop
    cases fuel with
    | zero => omega
    | succ f =>
      have hfd : (env.flows d).length = 1 := hlen d (by omega) (by omega)
      obtain ⟨rx, hrx⟩ := List.length_eq_one.mp hfd
      cases m with
      | zero =>
        have hcp : runConnectionPossible model env d = false := by
          simpa using hstop
        simp [distanceSweepAux, runRows, hrx, hcp, List.range'_one]
      | succ k =>
        have hcp : runConnectionPossible model env d = true :=
          hcont d (by omega) (by omega)
        have ihres := ih f (d + 1) (runAverageRSS b (env.signals d)) (by omega) (by omega)
          (fun e he hde => hlen e (by omega) (by omega))
          (fun e he hde => hcont e (by omega) (by omega))
          (by
            have he : d + 1 + (k + 1) - 1 = d + (k + 1 + 1) - 1 := by omega
            rw [he]; exact hstop)
        simp [distanceSweepAux, runRows, hrx, hcp, ihres, List.range'_succ]

/-- Wrapper of distanceSweepAux_coords for the full sweep, which starts at
distance 1: if runs 1..D-1 keep connectionPossible true and run D turns it
false, the output coordinates are exactly 1..D. -/
theorem distanceSweep_coords (model : PropagationModel) (env : DistanceEnv) (D fuel : ℕ)
    (hD : 1 ≤ D) (hfuel : D ≤ fuel)
    (hlen : ∀ e, e ≤ D → 1 ≤ e → (env.flows e).length = 1)
    (hcont : ∀ e, e < D → 1 ≤ e → runConnectionPossible model env e = true)
    (hstop : runConnectionPossible model env D = false) :
    (distanceSweep model env fuel).map Row.coordinate = List.range' 1 D := by
  unfold distanceSweep
  apply distanceSweepAux_coords model env D fuel 1 0 hD hfuel
  · intro e he h1
    exact hlen e (by omega) h1
  · intro e he h1
    exact hcont e (by omega) h1
  · have h : 1 + D - 1 = D := by omega
    rw [h]; exact hstop

/-- Shape of the distance sweep when the stop condition never fires: the
loop runs through all its fuel and emits one row per coordinate. -/
theorem distanceSweepAux_coords_nostop (model : PropagationModel) (env : DistanceEnv)
    (hlen : ∀ e, (env.flows e).length = 1)
    (hcont : ∀ e, runConnectionPossible model env e = true) :
    ∀ (fuel d : ℕ) (b : ℚ),
      (distanceSweepAux model env fuel d b).map Row.coordinate = List.range' d fuel := by
  intro fuel
  induction fuel with
  | zero => intro d b; simp [distanceSweepAux]
  | succ f ih =>
    intro d b
    obtain ⟨rx, hrx⟩ := List.length_eq_one.mp (hlen d)
    simp [distanceSweepAux, runRows, hrx, hcont d, ih, List.range'_succ]

/-- For a forced-stop model every coordinate the sweep visits from a start
at most 500 stays at most 500. -/
theorem distanceSweepAux_le_500 (model : PropagationModel) (env : DistanceEnv)
    (hm : isForcedStopModel model = true) :
    ∀ (fuel d : ℕ) (b : ℚ), d ≤ 500 →
      ∀ r ∈ distanceSweepAux model env fuel d b, r.coordinate ≤ 500 := by
  intro fuel
  induction fuel with
  | zero =>
    intro d b hd r hr
    simp [distanceSweepAux] at hr
  | succ f ih =>
    intro d b hd r hr
    simp only [distanceSweepAux, List.mem_append] at hr
    rcases hr with hr | hr
    · simp only [runRows, List.mem_map] at hr
      obtain ⟨rx, -, rfl⟩ := hr
      exact hd
    · cases hcp : runConnectionPossible model env d with
      | false => rw [hcp] at hr; simp at hr
      | true =>
        rw [hcp] at hr
        simp only [if_true] at hr
        have hd500 : ¬ (500 ≤ d) := by
          by_contra habs
          have : runConnectionPossible model env d = false := by
            simp [runConnectionPossible, hm, habs]
          rw [this] at hcp
          exact Bool.false_ne_true hcp
        exact ih (d + 1) (runAverageRSS b (env.signals d)) (by omega) r hr

/-- The runtime-sweep fold appends, for each duration with exactly one flow
entry, exactly one row carrying that duration as its coordinate. -/
theorem runtimeFoldl_coords (env : RuntimeEnv) :
    ∀ (ts : List ℕ) (st : RuntimeState),
      (∀ t ∈ ts, (env.flows t).length = 1) →
      ((ts.foldl (runtimeStep env) st).rows).map Row.coordinate
        = st.rows.map Row.coordinate ++ ts := by
  intro ts
  induction ts with
  | nil => intro st h; simp
  | cons t ts ih =>
    intro st h
    obtain ⟨rx, hrx⟩ := List.length_eq_one.mp (h t (by simp))
    rw [List.foldl_cons, ih _ (fun e he => h e (by simp [he]))]
    simp [runtimeStep, hrx]

/-- The runtime-sweep fold appends nothing for durations whose flow monitor
returns no flow entries. -/
theorem runtimeFoldl_rows_of_no_flows (env : RuntimeEnv) :
    ∀ (ts : List ℕ) (st : RuntimeState),
      (∀ t ∈ ts, env.flows t = []) →
      (ts.foldl (runtimeStep env) st).rows = st.rows := by
  intro ts
  induction ts with
  | nil => intro st h; rfl
  | cons t ts ih =>
    intro st h
    rw [List.foldl_cons, ih _ (fun e he => h e (by simp [he]))]
    simp [runtimeStep, h t (by simp)]

/-- C2: the RSS filter of PhyTrace, started from the per-run reset value 0,
computes exactly the spec recurrence e0 = 0, ei = (si + e(i-1)) / 2 — the
estimate after a fixed sequence of signal levels is uniquely determined by
that recurrence, whatever value the global held before the reset — and the
inputs [-60, -60] yield -45, not -60. -/
theorem C2_rss_filter :
    (∀ (before : ℚ) (signals : List ℚ),
        runAverageRSS before signals = rssRecurrence signals) ∧
    runAverageRSS 0 [-60, -60] = -45 ∧
    runAverageRSS 0 [-60, -60] ≠ -60 := by
  refine ⟨?_, by norm_num [runAverageRSS, phyTraceStep], by norm_num [runAverageRSS, phyTraceStep]⟩
  intro before signals
  simp [runAverageRSS, rssRecurrence, rssRecurrenceAux_eq_foldl]

/-- C3: every row appended for a flow entry reports throughput
rxBytes * 8 / durationSeconds / 1024 kbps — with the fixed duration 50 s in
the distance sweep and the current duration in the runtime sweep — and
rxBytes = 14500000 with duration 50 give exactly 2265.625 kbps. -/
theorem C3_throughput :
    (∀ (env : DistanceEnv) (d : ℕ) (b : ℚ),
        (runRows env d b).map Row.throughput
          = (env.flows d).map (fun rxBytes : ℕ => (rxBytes : ℚ) * 8 / 50 / 1024)) ∧
    (∀ (env : RuntimeEnv) (st : RuntimeState) (simTime : ℕ),
        ((runtimeStep env st simTime).rows).map Row.throughput
          = st.rows.map Row.throughput
            ++ (env.flows simTime).map
                 (fun rxBytes : ℕ => (rxBytes : ℚ) * 8 / (simTime : ℚ) / 1024)) ∧
    throughputKbps 14500000 50 = 2265.625 := by
  refine ⟨?_, ?_, ?_⟩
  · intro env d b
    simp only [runRows, List.map_map]
    rfl
  · intro env st simTime
    simp only [runtimeStep, List.map_append, List.map_map]
    rfl
  · norm_num [throughputKbps]

/-- C6: the global RSS estimate is reset to 0 at the start of every run, so
the end-of-run estimate never depends on the value left by a prior run, an
estimate over no frames is exactly the reset value 0, and every row recorded
by a run whose callback saw no frames carries RSS exactly 0, in both
drivers. -/
theorem C6_reset_invariant :
    (∀ (b b2 : ℚ) (signals : List ℚ),
        runAverageRSS b signals = runAverageRSS b2 signals) ∧
    (∀ b : ℚ, runAverageRSS b [] = 0) ∧
    (∀ (env : DistanceEnv) (d : ℕ) (b : ℚ), env.signals d = [] →
        ∀ r ∈ runRows env d b, r.rss = 0) ∧
    (∀ (env : RuntimeEnv) (st : RuntimeState) (simTime : ℕ), env.signals simTime = [] →
        ∀ r ∈ (runtimeStep env st simTime).rows, r ∈ st.rows ∨ r.rss = 0) := by
  refine ⟨fun _ _ _ => rfl, fun _ => rfl, ?_, ?_⟩
  · intro env d b h r hr
    simp [runRows, runAverageRSS, h] at hr
    obtain ⟨rx, -, rfl⟩ := hr
    rfl
  · intro env st simTime h r hr
    simp only [runtimeStep, List.mem_append] at hr
    rcases hr with hr | hr
    · exact Or.inl hr
    · right
      simp [runAverageRSS, h] at hr
      obtain ⟨rx, -, rfl⟩ := hr
      rfl

/-- Witness for C6 at a concrete run with no received frames: the recorded
row carries RSS exactly 0 even though the global held 7 beforehand. -/
theorem C6_witness : Row.rss ⟨2, 0, 0⟩ = 0 :=
  C6_reset_invariant.2.2.1 envAllZero 2 7 rfl ⟨2, 0, 0⟩
    (by simp [runRows, envAllZero, runAverageRSS, throughputKbps])

/-- C7 counterexample: a completed run for which the flow monitor returns no
flow entries appends no row at all, so append is not called exactly once per
completed run. -/
theorem C7_counterexample :
    runRows envNoFlows 1 0 = [] ∧ envNoFlows.flows 1 = [] :=
  ⟨rfl, rfl⟩

/-- C7 amended: each completed run appends one row per flow entry returned
by the flow monitor; when the monitor returns exactly one entry — the
designed case — the run appends exactly one row carrying the single RSS
estimate of that run and the throughput of its flow. -/
theorem C7_per_flow_rows :
    (∀ (env : DistanceEnv) (d : ℕ) (b : ℚ),
        (runRows env d b).length = (env.flows d).length) ∧
    (∀ (env : RuntimeEnv) (st : RuntimeState) (simTime : ℕ),
        ((runtimeStep env st simTime).rows).length
          = st.rows.length + (env.flows simTime).length) ∧
    (∀ (env : DistanceEnv) (d : ℕ) (b : ℚ) (rx : ℕ), env.flows d = [rx] →
        runRows env d b
          = [⟨d, runAverageRSS b (env.signals d), throughputKbps rx simulationTime⟩]) := by
  refine ⟨?_, ?_, ?_⟩
  · intro env d b
    simp [runRows]
  · intro env st simTime
    simp [runtimeStep]
  · intro env d b rx h
    simp [runRows, h]

/-- Witness for C7 at a run whose flow monitor returns exactly one entry. -/
theorem C7_witness :
    runRows envOneFlow 1 0
      = [⟨1, runAverageRSS 0 (envOneFlow.signals 1), throughputKbps 5 simulationTime⟩] :=
  C7_per_flow_rows.2.2 envOneFlow 1 0 5 rfl

/-- C10: a distance-sweep run for which the flow monitor returns an empty
collection of flow entries appends no row; its connectionPossible flag, true
on entry, can only be cleared by the forced-stop rule (distance at least 500
with FixedRSS or Nakagami), never by the connectivity condition, so below
distance 500 — and for the other three models at any distance — the sweep
advances to the next distance. -/
theorem C10_zero_flow (model : PropagationModel) (env : DistanceEnv) (d : ℕ) (b : ℚ)
    (h : env.flows d = []) :
    runRows env d b = [] ∧
    runConnectionPossible model env d
      = !(decide (500 ≤ d) && isForcedStopModel model) ∧
    (isForcedStopModel model = false → runConnectionPossible model env d = true) ∧
    (d < 500 → runConnectionPossible model env d = true) := by
  refine ⟨?_, ?_, ?_, ?_⟩
  · simp [runRows, h]
  · simp [runConnectionPossible, h]
  · intro hm
    simp [runConnectionPossible, h, hm]
  · intro hd
    have h500 : ¬ (500 ≤ d) := by omega
    simp [runConnectionPossible, h, h500]

/-- Witness for C10 at distance 7 with an empty flow-statistics collection:
the sweep keeps going. -/
theorem C10_witness :
    runConnectionPossible PropagationModel.FRIIS envNoFlows 7 = true :=
  (C10_zero_flow PropagationModel.FRIIS envNoFlows 7 0 rfl).2.2.2 (by omega)

set_option maxRecDepth 8000 in
/-- C1 counterexample: with the FixedRSS model and an environment whose
single flow entry receives bytes at every distance up to 500 and would first
report zero received bytes at distance 501, receivedAnyBytes is true in every
run that executes, yet the sweep stops after the run at distance 500 because
of the forced-stop rule: the output ends at coordinate 500 and contains no
row for coordinate 501, against the claim that rows reach the distance where
receivedAnyBytes becomes false. -/
theorem C1_counterexample :
    (distanceSweep PropagationModel.FIXED_RSS envConnectedTo500 600).map Row.coordinate
        = List.range' 1 500 ∧
    501 ∉ (distanceSweep PropagationModel.FIXED_RSS envConnectedTo500 600).map
        Row.coordinate ∧
    envConnectedTo500.flows 500 = [1] ∧ envConnectedTo500.flows 501 = [0] := by
  have hlen : ∀ e, e ≤ 500 → 1 ≤ e → (envConnectedTo500.flows e).length = 1 := by decide
  have hcont : ∀ e, e < 500 → 1 ≤ e →
      runConnectionPossible PropagationModel.FIXED_RSS envConnectedTo500 e = true := by
    decide
  have hstop : runConnectionPossible PropagationModel.FIXED_RSS envConnectedTo500 500
      = false := by decide
  have h := distanceSweep_coords PropagationModel.FIXED_RSS envConnectedTo500 500 600
    (by omega) (by omega) hlen hcont hstop
  refine ⟨h, ?_, rfl, rfl⟩
  rw [h]
  simp [List.mem_range'_1]

/-- C1 amended: for every propagation model the sweep coordinate starts at 1
and increments by 1 after each run; assuming the flow monitor returns
exactly one flow entry per run, the sweep continues while the prior run kept
receivedAnyBytes true, the run in which receivedAnyBytes becomes false (at
distance D) is still recorded before the sweep stops, and — provided the
forced-stop rule does not fire first, i.e. D is at most 500 or the model is
neither FixedRSS nor Nakagami — the output contains rows for exactly the
coordinates 1..D. -/
theorem C1_distance_sweep (model : PropagationModel) (env : DistanceEnv)
    (rx : ℕ → ℕ) (D fuel : ℕ)
    (hD : 1 ≤ D) (hfuel : D ≤ fuel)
    (hflows : ∀ d, d ≤ D → 1 ≤ d → env.flows d = [rx d])
    (hpos : ∀ d, d < D → 1 ≤ d → rx d ≠ 0)
    (hzero : rx D = 0)
    (hforced : D ≤ 500 ∨ isForcedStopModel model = false) :
    (distanceSweep model env fuel).map Row.coordinate = List.range' 1 D := by
  apply distanceSweep_coords model env D fuel hD hfuel
  · intro e he h1
    rw [hflows e he h1]
    rfl
  · intro e he h1
    have hx : rx e ≠ 0 := hpos e he h1
    rcases hforced with hf | hf
    · have h500 : ¬ (500 ≤ e) := by omega
      simp [runConnectionPossible, hflows e (by omega) h1, hx, h500]
    · simp [runConnectionPossible, hflows e (by omega) h1, hx, hf]
  · simp [runConnectionPossible, hflows D le_rfl hD, hzero]

/-- Witness for C1 at a concrete environment whose single flow goes silent
at distance 3: the output holds rows for coordinates 1, 2, 3 and stops. -/
theorem C1_witness :
    (distanceSweep PropagationModel.FRIIS envC1w 3).map Row.coordinate
      = List.range' 1 3 :=
  C1_distance_sweep PropagationModel.FRIIS envC1w rxC1w 3 3 (by omega) (by omega)
    (by decide) (by decide) (by decide) (Or.inl (by omega))

/-- C4 counterexample: when the flow monitor returns no flow entries for any
run, the runtime sweep still iterates all 200 durations but appends no row
at all, so its output does not always contain exactly 200 rows. -/
theorem C4_counterexample :
    (runtimeSweep renvNoFlows).rows.length = 0 ∧
    (runtimeSweep renvNoFlows).rows.length ≠ 200 := by
  have h : (runtimeSweep renvNoFlows).rows = [] :=
    runtimeFoldl_rows_of_no_flows renvNoFlows (List.range' 1 200) ⟨true, 0, []⟩
      (fun t _ => rfl)
  rw [h]
  simp

/-- C4 amended: the runtime sweep iterates durations 1 through 200 inclusive
unconditionally — the receivedAnyBytes flag is tracked but never consulted
by the loop condition — and one row is appended per flow entry, so whenever
the flow monitor returns exactly one flow entry per run (the designed case)
the output contains exactly 200 rows with coordinates 1..200, whatever the
received-byte outcomes; a run with zero flow entries appends no row. -/
theorem C4_runtime_sweep (env : RuntimeEnv)
    (h : ∀ simTime, simTime ≤ 200 → 1 ≤ simTime → (env.flows simTime).length = 1) :
    ((runtimeSweep env).rows).map Row.coordinate = List.range' 1 200 ∧
    ((runtimeSweep env).rows).length = 200 := by
  have hmem : ∀ t ∈ List.range' 1 200, (env.flows t).length = 1 := by
    intro t ht
    rw [List.mem_range'_1] at ht
    exact h t (by omega) (by omega)
  have hc := runtimeFoldl_coords env (List.range' 1 200) ⟨true, 0, []⟩ hmem
  have h1 : ((runtimeSweep env).rows).map Row.coordinate = List.range' 1 200 := by
    simpa [runtimeSweep] using hc
  refine ⟨h1, ?_⟩
  have h2 := congrArg List.length h1
  simpa using h2

set_option maxRecDepth 8000 in
/-- Witness for C4 in an environment whose single flow entry receives zero
bytes in every run: connectivity is lost from the first run, yet all 200
rows appear. -/
theorem C4_witness :
    ((runtimeSweep renvAllZero).rows).map Row.coordinate = List.range' 1 200 ∧
    ((runtimeSweep renvAllZero).rows).length = 200 :=
  C4_runtime_sweep renvAllZero (by decide)

/-- C5: for the FixedRSS and Nakagami models — exactly the models the
forced-stop test selects — every row of the distance sweep has coordinate at
most 500, whatever the connectivity outcomes; the other three models are not
subject to the bound: with permanently positive received bytes their sweeps
produce a row with coordinate 501. -/
theorem C5_forced_stop :
    (∀ (model : PropagationModel) (env : DistanceEnv) (fuel : ℕ),
        isForcedStopModel model = true →
        ∀ r ∈ distanceSweep model env fuel, r.coordinate ≤ 500) ∧
    (∀ model : PropagationModel, isForcedStopModel model = false →
        ∃ r ∈ distanceSweep model envAllOnes 501, 500 < r.coordinate) ∧
    isForcedStopModel PropagationModel.FIXED_RSS = true ∧
    isForcedStopModel PropagationModel.NAKAGAMI = true ∧
    isForcedStopModel PropagationModel.FRIIS = false ∧
    isForcedStopModel PropagationModel.THREE_LOG_DISTANCE = false ∧
    isForcedStopModel PropagationModel.TWO_RAY_GROUND = false := by
  refine ⟨?_, ?_, rfl, rfl, rfl, rfl, rfl⟩
  · intro model env fuel hm r hr
    exact distanceSweepAux_le_500 model env hm fuel 1 0 (by omega) r hr
  · intro model hm
    have hcp : ∀ e, runConnectionPossible model envAllOnes e = true := by
      intro e
      simp [runConnectionPossible, envAllOnes, hm]
    have hlen : ∀ e, (envAllOnes.flows e).length = 1 := fun e => rfl
    have hcoords : (distanceSweep model envAllOnes 501).map Row.coordinate
        = List.range' 1 501 :=
      distanceSweepAux_coords_nostop model envAllOnes hlen hcp 501 1 0
    have h501 : (501 : ℕ) ∈ (distanceSweep model envAllOnes 501).map Row.coordinate := by
      rw [hcoords]
      simp [List.mem_range'_1]
    obtain ⟨r, hr, hcoord⟩ := List.mem_map.mp h501
    exact ⟨r, hr, by omega⟩

/-- Witness for C5 at the Nakagami model with a zero-byte first run. -/
theorem C5_witness : Row.coordinate ⟨1, 0, 0⟩ ≤ 500 :=
  C5_forced_stop.1 PropagationModel.NAKAGAMI envAllZero 1 rfl ⟨1, 0, 0⟩
    (by simp [distanceSweep, distanceSweepAux, runRows, runConnectionPossible, envAllZero,
          runAverageRSS, throughputKbps])

/-- C8: the switch over the propagation-model tag covers the five
enumerators and has no default case, so for a tag outside the five
recognized variants no string is produced — control falls off the end of the
value-returning function, which in C++ is undefined behavior, not the
fail-fast abort the specification calls for; every in-range tag is mapped to
its name. -/
theorem C8_no_abort :
    propagationModelToStringTag 5 = none ∧
    (∀ n : ℕ, propagationModelToStringTag (n + 5) = none) ∧
    propagationModelToStringTag 0 = some "Friis" ∧
    propagationModelToStringTag 1 = some "FixedRSS" ∧
    propagationModelToStringTag 2 = some "ThreeLogDistance" ∧
    propagationModelToStringTag 3 = some "TwoRayGround" ∧
    propagationModelToStringTag 4 = some "Nakagami" := by
  refine ⟨rfl, ?_, rfl, rfl, rfl, rfl, rfl⟩
  intro n
  rfl

/-- C9 counterexample: at duration 50 the packet limit handed to the traffic
generator is the truncated value 323275, while the exact quotient
durationSeconds / interval is 9375000 / 29, which is not an integer, so the
stored limit does not equal durationSeconds / interval. -/
theorem C9_counterexample :
    packetLimit 50 = 323275 ∧
    (50 : ℚ) / interval = 9375000 / 29 ∧
    ((packetLimit 50 : ℕ) : ℚ) ≠ (50 : ℚ) / interval := by
  have hq : (50 : ℚ) / interval = 9375000 / 29 := by
    norm_num [interval, dataRate, packetSize]
  have hp : packetLimit 50 = 323275 := by
    rw [packetLimit, hq]
    have hcast : (9375000 : ℚ) / 29 = ((9375000 : ℕ) : ℚ) / ((29 : ℕ) : ℚ) := by
      norm_num
    rw [hcast, Nat.floor_div_nat]
    norm_num
  refine ⟨hp, hq, ?_⟩
  rw [hp, hq]
  norm_num

/-- C9 amended: the per-packet send interval is
1 / (dataRate / (packetSize * 8)) seconds with dataRate 75 Mbps and
packetSize 1450 bytes, i.e. exactly 29 / 187500 seconds, constant across all
runs; the packet count ceiling passed to the traffic generator is
durationSeconds / interval truncated to an unsigned integer, which is 323275
for the fixed 50 s distance-sweep runs. -/
theorem C9_scenario_arithmetic :
    interval = 1 / (dataRate / ((packetSize : ℚ) * 8)) ∧
    dataRate = 75000000 ∧
    packetSize = 1450 ∧
    interval = 29 / 187500 ∧
    (∀ durationSeconds : ℚ, packetLimit durationSeconds = ⌊durationSeconds / interval⌋₊) ∧
    packetLimit 50 = 323275 := by
  refine ⟨rfl, rfl, rfl, ?_, fun _ => rfl, ?_⟩
  · norm_num [interval, dataRate, packetSize]
  · have hq : (50 : ℚ) / interval = ((9375000 : ℕ) : ℚ) / ((29 : ℕ) : ℚ) := by
      norm_num [interval, dataRate, packetSize]
    rw [packetLimit, hq, Nat.floor_div_nat]
    norm_num
